import Mathlib

/-!
Shallow embedding of the forecast-comparison pipeline of
`05_modeling_trends_dashboard.py` (the only source file of the repository).
The embedded region is lines 136-186: the per-country / all-countries
aggregation handed to the forecast section, the degree-2 polynomial
least-squares extrapolation, the date arithmetic of the Prophet call
(`make_future_dataframe` with `freq="Y"`), and the pandas merges that build
the final `compare_df` table.  Real numbers are modelled exactly by `ℚ`;
pandas data frames are modelled as Lean lists of rows.
-/

namespace Dashboard

/-- One row of the input dataset `co2_emission_asean_clean.csv` as used by the
forecast section: country label, year and the value of the
`co2_per_capita` column. -/
structure Row where
  country : String
  year : Int
  value : ℚ
  deriving DecidableEq, Repr

/-- A historical series handed to the forecast section: `(year, value)` pairs
(the columns `year` and `co2_per_capita` of `df_filtered_forecast`). -/
abbrev Series := List (Int × ℚ)

/-! ### Generic list helpers (sorting, dedup, concat) -/

/-- Stable insertion of an element into a list by an integer key; the element
is placed before the first entry whose key is strictly larger, after entries
with an equal key seen so far would be wrong for stability, so it is placed
before the first entry whose key is at least as large only when its own key is
not larger, i.e. before the first strictly larger run boundary. -/
def insertLe {α : Type} (key : α → Int) (a : α) : List α → List α
  | [] => [a]
  | b :: bs => if key a ≤ key b then a :: b :: bs else b :: insertLe key a bs

/-- Stable insertion sort by an integer key; models `DataFrame.sort_values`
on an integer column (the tie order is irrelevant to every statement below,
since all tie-sensitive inputs have unique keys). -/
def sortLe {α : Type} (key : α → Int) : List α → List α
  | [] => []
  | a :: as => insertLe key a (sortLe key as)

/-- Sorted insertion that drops duplicates; building block for the sorted
unique key list produced by `DataFrame.groupby`. -/
def insertUnique (y : Int) : List Int → List Int
  | [] => [y]
  | b :: bs =>
    if y = b then b :: bs
    else if y < b then y :: b :: bs
    else b :: insertUnique y bs

/-- Sorted deduplicated list of keys, ascending; models the group keys of
`DataFrame.groupby` (pandas sorts group keys ascending by default). -/
def uniqueSorted : List Int → List Int
  | [] => []
  | y :: ys => insertUnique y (uniqueSorted ys)

/-- Concatenation of the lists produced for each element; used to model
row-producing joins. -/
def concatMap {α β : Type} (f : α → List β) : List α → List β
  | [] => []
  | a :: as => f a ++ concatMap f as

/-! ### Minima and maxima of integer columns -/

/-- Minimum of a list of integers, as computed by `Series.min()` on a
nonempty column; 0 on the empty list (pandas would raise there, and every
statement below assumes a nonempty series where it matters). -/
def listMinI : List Int → Int
  | [] => 0
  | x :: xs => xs.foldl min x

/-- Maximum of a list of integers, as computed by `Series.max()` on a
nonempty column; 0 on the empty list. -/
def listMaxI : List Int → Int
  | [] => 0
  | x :: xs => xs.foldl max x

/-! ### Data selection for the forecast section (source lines 136-146)

For the aggregate label the source computes
  df.groupby("year", as_index=False)["co2_per_capita"].mean().sort_values("year"),
for a single country it computes
  df[df["country"] == selected_country][["year", "co2_per_capita"]].sort_values("year").
-/

/-- Country selection made in the sidebar: the aggregate label
"All ASEAN Countries" or a single country name. -/
inductive Selection where
  | all : Selection
  | country : String → Selection

/-- Projection of the rows of one country to `(year, value)` pairs, in
dataset order; models `df[df["country"] == c][["year", "co2_per_capita"]]`. -/
def selectCountry (ds : List Row) (c : String) : Series :=
  (ds.filter (fun r => r.country == c)).map (fun r => (r.year, r.value))

/-- Values of the `co2_per_capita` column among rows of a given year. -/
def yearValues (ds : List Row) (y : Int) : List ℚ :=
  (ds.filter (fun r => r.year == y)).map Row.value

/-- Per-year arithmetic mean of the value column; models
`df.groupby("year", as_index=False)["co2_per_capita"].mean()` (pandas emits
one row per distinct year, keys ascending). -/
def groupbyMeanYear (ds : List Row) : Series :=
  (uniqueSorted (ds.map Row.year)).map
    (fun y => (y, (yearValues ds y).sum / ((yearValues ds y).length : ℚ)))

/-- The series handed to the forecast section (`df_filtered_forecast`),
source lines 136-146. -/
def dfFilteredForecast (ds : List Row) : Selection → Series
  | Selection.all => sortLe Prod.fst (groupbyMeanYear ds)
  | Selection.country c => sortLe Prod.fst (selectCountry ds c)

/-! ### Year bounds and the evaluated year range (source lines 155-159) -/

/-- Years column of a series. -/
def seriesYears (s : Series) : List Int := s.map Prod.fst

/-- Minimum observed year, `int(df_filtered_forecast["year"].min())`. -/
def minYear (s : Series) : Int := listMinI (seriesYears s)

/-- Maximum observed year, `int(df_filtered_forecast["year"].max())`
(the variable `max_hist_year` of the source). -/
def maxHistYear (s : Series) : Int := listMaxI (seriesYears s)

/-- Inclusive integer range of years, `np.arange(lo, hi + 1)`. -/
def yearRange (lo hi : Int) : List Int :=
  (List.range (hi + 1 - lo).toNat).map (fun (i : Nat) => lo + (i : Int))

/-! ### Polynomial regression forecast (source lines 148-166)

The source builds degree-2 features without bias
(`PolynomialFeatures(degree=2, include_bias=False)`) and fits
`LinearRegression()` (with intercept), i.e. an ordinary least-squares fit of
  value = c0 + c1 * year + c2 * year^2.
Floating-point least squares is modelled by the exact rational solution of the
normal equations (Cramer's rule on the 3x3 Gram matrix); this is the unique
least-squares minimiser whenever the Gram determinant is nonzero, which holds
for every series with at least 3 distinct years.  `poly_df` then evaluates the
fitted curve on `np.arange(min_year, future_year + 1)`. -/

/-- Sum of k-th powers of the year column, an entry of the Gram matrix of the
design `[1, x, x^2]`. -/
def powSum (s : Series) (k : Nat) : ℚ :=
  (s.map (fun p => ((p.1 : ℚ)) ^ k)).sum

/-- Moment of the value column against the k-th power of the year column. -/
def mixSum (s : Series) (k : Nat) : ℚ :=
  (s.map (fun p => ((p.1 : ℚ)) ^ k * p.2)).sum

/-- Determinant of a 3x3 matrix given row by row. -/
def det3 (a b c d e f g h i : ℚ) : ℚ :=
  a * (e * i - f * h) - b * (d * i - f * g) + c * (d * h - e * g)

/-- Gram determinant of the quadratic design matrix. -/
def detM (s : Series) : ℚ :=
  det3 (powSum s 0) (powSum s 1) (powSum s 2)
       (powSum s 1) (powSum s 2) (powSum s 3)
       (powSum s 2) (powSum s 3) (powSum s 4)

/-- Cramer numerator for the intercept coefficient. -/
def cram0 (s : Series) : ℚ :=
  det3 (mixSum s 0) (powSum s 1) (powSum s 2)
       (mixSum s 1) (powSum s 2) (powSum s 3)
       (mixSum s 2) (powSum s 3) (powSum s 4)

/-- Cramer numerator for the linear coefficient. -/
def cram1 (s : Series) : ℚ :=
  det3 (powSum s 0) (mixSum s 0) (powSum s 2)
       (powSum s 1) (mixSum s 1) (powSum s 3)
       (powSum s 2) (mixSum s 2) (powSum s 4)

/-- Cramer numerator for the quadratic coefficient. -/
def cram2 (s : Series) : ℚ :=
  det3 (powSum s 0) (powSum s 1) (mixSum s 0)
       (powSum s 1) (powSum s 2) (mixSum s 1)
       (powSum s 2) (powSum s 3) (mixSum s 2)

/-- Fitted intercept of the least-squares quadratic. -/
def fitC0 (s : Series) : ℚ := cram0 s / detM s

/-- Fitted linear coefficient. -/
def fitC1 (s : Series) : ℚ := cram1 s / detM s

/-- Fitted quadratic coefficient. -/
def fitC2 (s : Series) : ℚ := cram2 s / detM s

/-- Value of the quadratic with the given coefficients at an integer year. -/
def polyEval (c0 c1 c2 : ℚ) (x : Int) : ℚ :=
  c0 + c1 * (x : ℚ) + c2 * (x : ℚ) ^ 2

/-- Prediction of the fitted model at a year, `model.predict` at that year. -/
def polyPred (s : Series) (y : Int) : ℚ :=
  polyEval (fitC0 s) (fitC1 s) (fitC2 s) y

/-- The polynomial forecast table `poly_df` of the source: one row per year of
`np.arange(min_year, future_year + 1)` with the fitted prediction. -/
def poly_df (s : Series) (fy : Int) : Series :=
  (yearRange (minYear s) fy).map (fun y => (y, polyPred s y))

/-- Sum of squared errors of a candidate quadratic on the series. -/
def sse (s : Series) (c0 c1 c2 : ℚ) : ℚ :=
  (s.map (fun p => (p.2 - polyEval c0 c1 c2 p.1) ^ 2)).sum

/-- Moment of the residuals of a candidate quadratic against the k-th power
of the year column; the normal equations say these vanish for k = 0, 1, 2. -/
def residMoment (s : Series) (c0 c1 c2 : ℚ) (k : Nat) : ℚ :=
  (s.map (fun p => (p.2 - polyEval c0 c1 c2 p.1) * ((p.1 : ℚ)) ^ k)).sum

/-- Sum of squared differences of two candidate quadratics over the series. -/
def diffSq (s : Series) (a0 a1 a2 b0 b1 b2 : ℚ) : ℚ :=
  (s.map (fun p => (polyEval a0 a1 a2 p.1 - polyEval b0 b1 b2 p.1) ^ 2)).sum

/-! ### Prophet forecast, structural part (source lines 169-176)

`df_prophet["ds"] = pd.to_datetime(df_prophet["ds"], format="%Y")` turns each
year into January 1 of that year.  `make_future_dataframe(periods, freq="Y")`
extends the history with dates from `pd.date_range(start=last_date,
periods=periods + 1, freq="Y")`, keeps those strictly after the last history
date and takes the first `periods`; the pandas frequency "Y" is *year end*,
so the generated dates are December 31 of consecutive years starting with the
year of `last_date` itself.  Only two day-positions therefore ever occur and
a date is modelled as a year tagged with its position.  The numeric output of
`Prophet.predict` is produced by the external library; it enters the
embedding as an arbitrary function from dates to (yhat, lower, upper)
triples, since no statement below depends on the fitted values. -/

/-- A timestamp occurring in the pipeline: January 1 of a year (history
dates) or December 31 of a year (dates generated by frequency "Y"). -/
inductive YDate where
  | jan1 : Int → YDate
  | dec31 : Int → YDate
  deriving DecidableEq, Repr

/-- Year of a timestamp, `Series.dt.year`. -/
def YDate.year : YDate → Int
  | YDate.jan1 y => y
  | YDate.dec31 y => y

/-- Chronological strict order on the modelled timestamps. -/
def YDate.before : YDate → YDate → Bool
  | YDate.jan1 a, YDate.jan1 b => a < b
  | YDate.jan1 a, YDate.dec31 b => a ≤ b
  | YDate.dec31 a, YDate.jan1 b => a < b
  | YDate.dec31 a, YDate.dec31 b => a < b

/-- History dates held by the fitted Prophet object: the distinct `ds`
values sorted ascending; every `ds` value is January 1 of an observed year. -/
def historyDates (s : Series) : List YDate :=
  (uniqueSorted (seriesYears s)).map YDate.jan1

/-- Dates of `pd.date_range(start=jan1 startYear, periods=n, freq="Y")`:
the first year-end on or after the start, then consecutive year ends. -/
def dateRangeYearEnd (startYear : Int) (n : Nat) : List YDate :=
  (List.range n).map (fun (i : Nat) => YDate.dec31 (startYear + (i : Int)))

/-- The frame produced by `prophet_model.make_future_dataframe(periods=p,
freq="Y")` with `include_history=True` (the default): history dates followed
by the first `p` generated dates strictly after the last history date. -/
def future_df (s : Series) (p : Int) : List YDate :=
  historyDates s ++
    ((dateRangeYearEnd (maxHistYear s) (p.toNat + 1)).filter
      (fun d => YDate.before (YDate.jan1 (maxHistYear s)) d)).take p.toNat

/-- The `year` column of `forecast_result`
(`forecast_result["ds"].dt.year`); `predict` returns one row per row of
`future_df`, so the year column is independent of the fitted values. -/
def trendYears (s : Series) (fy : Int) : List Int :=
  (future_df s (fy - maxHistYear s)).map YDate.year

/-- Rows of `forecast_result[["year", "yhat", "yhat_lower", "yhat_upper"]]`,
parameterised by the library's prediction function `m`. -/
def forecast_result (m : YDate → ℚ × ℚ × ℚ) (s : Series) (fy : Int) :
    List (Int × (ℚ × ℚ × ℚ)) :=
  (future_df s (fy - maxHistYear s)).map (fun d => (d.year, m d))

/-! ### Prophet seasonality configuration (source line 171)

The source constructs `Prophet(yearly_seasonality=False,
daily_seasonality=False)`.  The library's remaining seasonality argument,
`weekly_seasonality`, is left at its default value "auto"; Prophet resolves
an "auto" weekly component by enabling it only when the history spans at
least two weeks and the minimum spacing between observations is below seven
days. -/

/-- Value of one of Prophet's seasonality constructor arguments. -/
inductive SeasonalityArg where
  | auto : SeasonalityArg
  | enabled : SeasonalityArg
  | disabled : SeasonalityArg
  deriving DecidableEq, Repr

/-- The three sub-year seasonality arguments of the Prophet constructor. -/
structure ProphetConfig where
  yearly : SeasonalityArg
  weekly : SeasonalityArg
  daily : SeasonalityArg
  deriving DecidableEq, Repr

/-- Configuration of the model built on source line 171:
`Prophet(yearly_seasonality=False, daily_seasonality=False)`; the weekly
argument is not passed and keeps the library default "auto". -/
def prophet_model : ProphetConfig :=
  { yearly := SeasonalityArg.disabled
    weekly := SeasonalityArg.auto
    daily := SeasonalityArg.disabled }

/-- Prophet's auto rule for the weekly component (from the library's
`set_auto_seasonalities`): with argument "auto" the component is disabled
when the history spans under two weeks or the minimum spacing between
observations is at least one week.  Spans and spacings are in days. -/
def weeklyAutoDisable (spanDays minDtDays : Int) : Bool :=
  spanDays < 14 || minDtDays ≥ 7

/-- Whether a seasonality component ends up active in the fitted model,
given its constructor argument and the library's auto-disable flag for it. -/
def seasonalityActive (arg : SeasonalityArg) (autoDisable : Bool) : Bool :=
  match arg with
  | SeasonalityArg.enabled => true
  | SeasonalityArg.disabled => false
  | SeasonalityArg.auto => !autoDisable

/-! ### Combining the predictions (source lines 179-186)

`compare_df = poly_df.merge(forecast_result[["year", "yhat", "yhat_lower",
"yhat_upper"]], on="year", how="outer").sort_values("year")` followed by
`compare_df = compare_df.merge(df_filtered_forecast, on="year", how="left")`.
The pandas merges are modelled row-producingly: an outer merge emits one row
per matching left/right pair, a left-unmatched row with missing right fields,
and one row per right-unmatched row with missing left fields; a left merge
emits one row per left row and matching right row, with a missing field when
no right row matches.  `sort_values` on the year column is modelled by the
stable `sortLe`; the source's final left merge preserves the order of its
(already sorted) left frame.  The tie order within a duplicated year is not
relied on by any statement below. -/

/-- A row of the outer merge of `poly_df` with `forecast_result`. -/
structure MergedRow where
  year : Int
  poly : Option ℚ
  yhat : Option ℚ
  yhat_lower : Option ℚ
  yhat_upper : Option ℚ
  deriving DecidableEq, Repr

/-- A row of the final `compare_df` table. -/
structure CompareRow where
  year : Int
  poly : Option ℚ
  yhat : Option ℚ
  yhat_lower : Option ℚ
  yhat_upper : Option ℚ
  observed : Option ℚ
  deriving DecidableEq, Repr

/-- Outer merge of the polynomial table with the Prophet table on the year
column, `poly_df.merge(forecast_result[...], on="year", how="outer")`. -/
def outerMergeYear (left : Series) (right : List (Int × (ℚ × ℚ × ℚ))) :
    List MergedRow :=
  concatMap (fun lp =>
      if (right.filter (fun rp => rp.1 == lp.1)).isEmpty then
        [MergedRow.mk lp.1 (some lp.2) none none none]
      else
        (right.filter (fun rp => rp.1 == lp.1)).map (fun rp =>
          MergedRow.mk lp.1 (some lp.2) (some rp.2.1) (some rp.2.2.1) (some rp.2.2.2)))
    left
  ++ (right.filter (fun rp => !(left.any (fun lp => lp.1 == rp.1)))).map
      (fun rp => MergedRow.mk rp.1 none (some rp.2.1) (some rp.2.2.1) (some rp.2.2.2))

/-- Left merge of the sorted comparison table with the observed series on the
year column, `compare_df.merge(df_filtered_forecast, on="year", how="left")`. -/
def leftMergeObserved (rows : List MergedRow) (s : Series) : List CompareRow :=
  concatMap (fun r =>
      if (s.filter (fun p => p.1 == r.year)).isEmpty then
        [CompareRow.mk r.year r.poly r.yhat r.yhat_lower r.yhat_upper none]
      else
        (s.filter (fun p => p.1 == r.year)).map (fun p =>
          CompareRow.mk r.year r.poly r.yhat r.yhat_lower r.yhat_upper (some p.2)))
    rows

/-- The final comparison table `compare_df` of the source, parameterised by
the Prophet prediction function `m`. -/
def compare_df (m : YDate → ℚ × ℚ × ℚ) (s : Series) (fy : Int) :
    List CompareRow :=
  leftMergeObserved
    (sortLe MergedRow.year (outerMergeYear (poly_df s fy) (forecast_result m s fy)))
    s

/-- Error kinds named by the specification's error-handling design. -/
inductive CompError where
  | insufficientData : CompError
  | invalidForecastRange : CompError
  | fitDivergence : CompError
  | libraryError : CompError
  deriving DecidableEq, Repr

/-- Whether an Except value is a success. -/
def exceptOk {ε α : Type} : Except ε α → Bool
  | Except.ok _ => true
  | Except.error _ => false

/-- The forecast-comparison computation of source lines 148-186 as one
callable unit.  The source performs no input validation of its own: the only
failure it can produce on a nonempty selection is the external library's own
check (Prophet raises when the history holds fewer than 2 rows), mapped to
`CompError.libraryError`; otherwise the pipeline runs to completion and
returns the `compare_df` table. -/
def comparator (m : YDate → ℚ × ℚ × ℚ) (s : Series) (fy : Int) :
    Except CompError (List CompareRow) :=
  if s.length < 2 then Except.error CompError.libraryError
  else Except.ok (compare_df m s fy)

/-! ### Concrete inputs used by the closed statements below -/

/-- The example series of the specification's scenario:
(2015,1.0), (2016,1.2), (2017,1.5), (2018,1.9), (2019,2.4). -/
def exSeries : Series :=
  [((2015 : Int), (1 : ℚ)), (2016, 6/5), (2017, 3/2), (2018, 19/10), (2019, 12/5)]

/-- A two-point series (the specification's insufficient-data scenario). -/
def twoPointSeries : Series := [((2015 : Int), (1 : ℚ)), (2016, 2)]

/-- A placeholder prediction function; the structural statements below hold
for every prediction function and the closed ones instantiate it here. -/
def mZero : YDate → ℚ × ℚ × ℚ := fun _ => (0, 0, 0)

/-- A small concrete dataset with two countries over 2015-2016. -/
def exDataset : List Row :=
  [Row.mk "Indonesia" 2015 1, Row.mk "Malaysia" 2015 2,
   Row.mk "Indonesia" 2016 2, Row.mk "Malaysia" 2016 4]

/-- A three-point series with small years, used to evaluate the polynomial
fit exactly. -/
def witSeries : Series := [((0 : Int), (1 : ℚ)), (1, 2), (2, 4)]

/-! ## Lemmas and claim theorems -/

theorem insertLe_perm {α : Type} (key : α → Int) (a : α) (l : List α) :
    List.Perm (insertLe key a l) (a :: l) := by
  induction l with
  | nil => simp [insertLe]
  | cons b bs ih =>
    simp only [insertLe]
    by_cases h : key a ≤ key b
    · simp [h]
    · simp only [if_neg h]
      exact (ih.cons b).trans (List.Perm.swap a b bs)

theorem sortLe_perm {α : Type} (key : α → Int) (l : List α) :
    List.Perm (sortLe key l) l := by
  induction l with
  | nil => simp [sortLe]
  | cons a as ih =>
    exact (insertLe_perm key a (sortLe key as)).trans (ih.cons a)

theorem insertLe_pairwise {α : Type} (key : α → Int) (a : α) {l : List α}
    (hl : l.Pairwise (fun x y => key x ≤ key y)) :
    (insertLe key a l).Pairwise (fun x y => key x ≤ key y) := by
  induction l with
  | nil => simp [insertLe]
  | cons b bs ih =>
    rcases List.pairwise_cons.mp hl with ⟨hb, hbs⟩
    by_cases h : key a ≤ key b
    · simp only [insertLe, if_pos h]
      refine List.pairwise_cons.mpr ⟨?_, hl⟩
      intro c hc
      rcases List.mem_cons.mp hc with rfl | hc'
      · exact h
      · exact le_trans h (hb c hc')
    · simp only [insertLe, if_neg h]
      refine List.pairwise_cons.mpr ⟨?_, ih hbs⟩
      intro c hc
      rcases List.mem_cons.mp ((insertLe_perm key a bs).mem_iff.mp hc) with rfl | hc'
      · exact le_of_not_le h
      · exact hb c hc'

theorem sortLe_pairwise {α : Type} (key : α → Int) (l : List α) :
    (sortLe key l).Pairwise (fun x y => key x ≤ key y) := by
  induction l with
  | nil => simp [sortLe]
  | cons a as ih => exact insertLe_pairwise key a ih

theorem insertUnique_cons_self (b : Int) (bs : List Int) :
    insertUnique b (b :: bs) = b :: bs := by
  simp [insertUnique]

theorem mem_insertUnique {y a : Int} {l : List Int} :
    a ∈ insertUnique y l ↔ a = y ∨ a ∈ l := by
  induction l with
  | nil => simp [insertUnique]
  | cons b bs ih =>
    by_cases h1 : y = b
    · subst h1
      rw [insertUnique_cons_self]
      simp only [List.mem_cons]
      tauto
    · by_cases h2 : y < b
      · simp only [insertUnique, if_neg h1, if_pos h2, List.mem_cons]
      · simp only [insertUnique, if_neg h1, if_neg h2, List.mem_cons, ih]
        tauto

theorem insertUnique_pairwise {y : Int} {l : List Int}
    (hl : l.Pairwise (fun a b => a < b)) :
    (insertUnique y l).Pairwise (fun a b => a < b) := by
  induction l with
  | nil => simp [insertUnique]
  | cons b bs ih =>
    rcases List.pairwise_cons.mp hl with ⟨hb, hbs⟩
    by_cases h1 : y = b
    · subst h1
      rw [insertUnique_cons_self]
      exact hl
    · by_cases h2 : y < b
      · simp only [insertUnique, if_neg h1, if_pos h2]
        refine List.pairwise_cons.mpr ⟨?_, hl⟩
        intro c hc
        rcases List.mem_cons.mp hc with rfl | hc'
        · exact h2
        · exact lt_trans h2 (hb c hc')
      · simp only [insertUnique, if_neg h1, if_neg h2]
        refine List.pairwise_cons.mpr ⟨?_, ih hbs⟩
        intro c hc
        rcases mem_insertUnique.mp hc with rfl | hc'
        · exact lt_of_le_of_ne (le_of_not_lt h2) (Ne.symm h1)
        · exact hb c hc'

theorem uniqueSorted_pairwise (l : List Int) :
    (uniqueSorted l).Pairwise (fun a b => a < b) := by
  induction l with
  | nil => simp [uniqueSorted]
  | cons y ys ih => exact insertUnique_pairwise ih

theorem mem_uniqueSorted {a : Int} {l : List Int} :
    a ∈ uniqueSorted l ↔ a ∈ l := by
  induction l with
  | nil => simp [uniqueSorted]
  | cons y ys ih => simp [uniqueSorted, mem_insertUnique, ih]

theorem uniqueSorted_nodup (l : List Int) : (uniqueSorted l).Nodup :=
  (uniqueSorted_pairwise l).imp ne_of_lt

theorem mem_concatMap {α β : Type} {f : α → List β} {l : List α} {b : β} :
    b ∈ concatMap f l ↔ ∃ a ∈ l, b ∈ f a := by
  induction l with
  | nil => simp [concatMap]
  | cons x xs ih =>
    simp only [concatMap, List.mem_append, ih, List.mem_cons]
    constructor
    · rintro (h | ⟨a, ha, hb⟩)
      · exact ⟨x, Or.inl rfl, h⟩
      · exact ⟨a, Or.inr ha, hb⟩
    · rintro ⟨a, rfl | ha, hb⟩
      · exact Or.inl hb
      · exact Or.inr ⟨a, ha, hb⟩

theorem foldl_min_le_init : ∀ (l : List Int) (x : Int), l.foldl min x ≤ x := by
  intro l
  induction l with
  | nil => intro x; simp
  | cons y ys ih =>
    intro x
    calc (y :: ys).foldl min x = ys.foldl min (min x y) := by simp [List.foldl]
    _ ≤ min x y := ih (min x y)
    _ ≤ x := min_le_left x y

theorem foldl_min_le_mem {y : Int} :
    ∀ {l : List Int} (x : Int), y ∈ l → l.foldl min x ≤ y := by
  intro l
  induction l with
  | nil => intro x h; cases h
  | cons z zs ih =>
    intro x h
    rcases List.mem_cons.mp h with rfl | h'
    · calc (y :: zs).foldl min x = zs.foldl min (min x y) := by simp [List.foldl]
      _ ≤ min x y := foldl_min_le_init zs (min x y)
      _ ≤ y := min_le_right x y
    · exact ih (min x z) h'

theorem init_le_foldl_max : ∀ (l : List Int) (x : Int), x ≤ l.foldl max x := by
  intro l
  induction l with
  | nil => intro x; simp
  | cons y ys ih =>
    intro x
    calc x ≤ max x y := le_max_left x y
    _ ≤ ys.foldl max (max x y) := ih (max x y)
    _ = (y :: ys).foldl max x := by simp [List.foldl]

theorem mem_le_foldl_max {y : Int} :
    ∀ {l : List Int} (x : Int), y ∈ l → y ≤ l.foldl max x := by
  intro l
  induction l with
  | nil => intro x h; cases h
  | cons z zs ih =>
    intro x h
    rcases List.mem_cons.mp h with rfl | h'
    · calc y ≤ max x y := le_max_right x y
      _ ≤ zs.foldl max (max x y) := init_le_foldl_max zs (max x y)
      _ = (y :: zs).foldl max x := by simp [List.foldl]
    · exact ih (max x z) h'

theorem foldl_max_mem : ∀ (l : List Int) (x : Int), l.foldl max x = x ∨ l.foldl max x ∈ l := by
  intro l
  induction l with
  | nil => intro x; exact Or.inl rfl
  | cons y ys ih =>
    intro x
    have h : (y :: ys).foldl max x = ys.foldl max (max x y) := by simp [List.foldl]
    rcases ih (max x y) with h' | h'
    · rcases le_total x y with hxy | hxy
      · right
        rw [h, h', max_eq_right hxy]
        exact List.mem_cons_self y ys
      · left
        rw [h, h', max_eq_left hxy]
    · right
      rw [h]
      exact List.mem_cons_of_mem y h'

theorem minYear_le {s : Series} {p : Int × ℚ} (hp : p ∈ s) : minYear s ≤ p.1 := by
  have hy : p.1 ∈ seriesYears s := List.mem_map_of_mem Prod.fst hp
  cases s with
  | nil => cases hp
  | cons q qs =>
    unfold minYear listMinI seriesYears at *
    rcases List.mem_cons.mp hy with h | h
    · rw [List.map_cons, h]
      exact foldl_min_le_init _ _
    · rw [List.map_cons]
      exact foldl_min_le_mem _ h

theorem le_maxHistYear {s : Series} {p : Int × ℚ} (hp : p ∈ s) : p.1 ≤ maxHistYear s := by
  have hy : p.1 ∈ seriesYears s := List.mem_map_of_mem Prod.fst hp
  cases s with
  | nil => cases hp
  | cons q qs =>
    unfold maxHistYear listMaxI seriesYears at *
    rcases List.mem_cons.mp hy with h | h
    · rw [List.map_cons, h]
      exact init_le_foldl_max _ _
    · rw [List.map_cons]
      exact mem_le_foldl_max _ h

theorem maxHistYear_mem {s : Series} (hs : s ≠ []) : maxHistYear s ∈ seriesYears s := by
  cases s with
  | nil => exact absurd rfl hs
  | cons q qs =>
    unfold maxHistYear listMaxI seriesYears
    rw [List.map_cons]
    show (qs.map Prod.fst).foldl max q.1 ∈ q.1 :: qs.map Prod.fst
    rcases foldl_max_mem (qs.map Prod.fst) q.1 with h | h
    · rw [h]; exact List.mem_cons_self _ _
    · exact List.mem_cons_of_mem _ h

theorem minYear_le_maxHistYear {s : Series} (hs : s ≠ []) :
    minYear s ≤ maxHistYear s := by
  cases s with
  | nil => exact absurd rfl hs
  | cons q qs =>
    exact le_trans (minYear_le (List.mem_cons_self q qs))
      (le_maxHistYear (List.mem_cons_self q qs))

theorem mem_yearRange {lo hi y : Int} : y ∈ yearRange lo hi ↔ lo ≤ y ∧ y ≤ hi := by
  unfold yearRange
  simp only [List.mem_map, List.mem_range]
  constructor
  · rintro ⟨i, hi2, rfl⟩
    omega
  · rintro ⟨h1, h2⟩
    refine ⟨(y - lo).toNat, ?_, ?_⟩ <;> omega

theorem yearRange_nodup (lo hi : Int) : (yearRange lo hi).Nodup := by
  have hinj : Function.Injective (fun (i : Nat) => lo + (i : Int)) := by
    intro i j h
    simp only at h
    omega
  exact List.Nodup.map hinj (List.nodup_range _)

theorem residMoment_eq (s : Series) (c0 c1 c2 : ℚ) (k : Nat) :
    residMoment s c0 c1 c2 k =
      mixSum s k - (c0 * powSum s k + c1 * powSum s (k + 1) + c2 * powSum s (k + 2)) := by
  induction s with
  | nil => simp [residMoment, mixSum, powSum]
  | cons p ps ih =>
    simp only [residMoment, mixSum, powSum, List.map_cons, List.sum_cons] at *
    rw [ih]
    unfold polyEval
    ring

theorem sse_expand (s : Series) (a0 a1 a2 b0 b1 b2 : ℚ) :
    sse s a0 a1 a2 =
      sse s b0 b1 b2
        - 2 * ((a0 - b0) * residMoment s b0 b1 b2 0
             + (a1 - b1) * residMoment s b0 b1 b2 1
             + (a2 - b2) * residMoment s b0 b1 b2 2)
        + diffSq s a0 a1 a2 b0 b1 b2 := by
  induction s with
  | nil => simp [sse, residMoment, diffSq]
  | cons p ps ih =>
    simp only [sse, residMoment, diffSq, List.map_cons, List.sum_cons] at *
    rw [ih]
    unfold polyEval
    ring

theorem diffSq_nonneg (s : Series) (a0 a1 a2 b0 b1 b2 : ℚ) :
    0 ≤ diffSq s a0 a1 a2 b0 b1 b2 := by
  induction s with
  | nil => simp [diffSq]
  | cons p ps ih =>
    simp only [diffSq, List.map_cons, List.sum_cons] at *
    exact add_nonneg (sq_nonneg _) ih

theorem normalEq (s : Series) (h : detM s ≠ 0) (k : Nat) (hk : k < 3) :
    residMoment s (fitC0 s) (fitC1 s) (fitC2 s) k = 0 := by
  interval_cases k
  · rw [residMoment_eq]
    norm_num
    rw [fitC0, fitC1, fitC2]
    field_simp
    rw [cram0, cram1, cram2, detM, det3, det3, det3, det3]
    ring
  · rw [residMoment_eq]
    norm_num
    rw [fitC0, fitC1, fitC2]
    field_simp
    rw [cram0, cram1, cram2, detM, det3, det3, det3, det3]
    ring
  · rw [residMoment_eq]
    norm_num
    rw [fitC0, fitC1, fitC2]
    field_simp
    rw [cram0, cram1, cram2, detM, det3, det3, det3, det3]
    ring

theorem sse_fit_min (s : Series) (h : detM s ≠ 0) (c0 c1 c2 : ℚ) :
    sse s (fitC0 s) (fitC1 s) (fitC2 s) ≤ sse s c0 c1 c2 := by
  have he := sse_expand s c0 c1 c2 (fitC0 s) (fitC1 s) (fitC2 s)
  rw [normalEq s h 0 (by norm_num), normalEq s h 1 (by norm_num),
      normalEq s h 2 (by norm_num)] at he
  have hd := diffSq_nonneg s c0 c1 c2 (fitC0 s) (fitC1 s) (fitC2 s)
  rw [he]
  ring_nf
  linarith

theorem future_df_eq (s : Series) (p : Int) :
    future_df s p =
      historyDates s ++
        (List.range p.toNat).map
          (fun (i : Nat) => YDate.dec31 (maxHistYear s + (i : Int))) := by
  unfold future_df
  congr 1
  have hfilter :
      (dateRangeYearEnd (maxHistYear s) (p.toNat + 1)).filter
        (fun d => YDate.before (YDate.jan1 (maxHistYear s)) d) =
      dateRangeYearEnd (maxHistYear s) (p.toNat + 1) := by
    apply List.filter_eq_self.mpr
    intro d hd
    rcases List.mem_map.mp hd with ⟨i, _, rfl⟩
    simp only [YDate.before, decide_eq_true_eq]
    omega
  rw [hfilter]
  unfold dateRangeYearEnd
  rw [← List.map_take, List.take_range]
  have hmin : min p.toNat (p.toNat + 1) = p.toNat := by omega
  rw [hmin]

/-! ### General helper lemmas about the pipeline -/

theorem mem_le_listMaxI {y : Int} {l : List Int} (h : y ∈ l) : y ≤ listMaxI l := by
  cases l with
  | nil => cases h
  | cons x xs =>
    unfold listMaxI
    rcases List.mem_cons.mp h with rfl | h'
    · exact init_le_foldl_max xs y
    · exact mem_le_foldl_max x h'

theorem groupbyMeanYear_fst (ds : List Row) :
    (groupbyMeanYear ds).map Prod.fst = uniqueSorted (ds.map Row.year) := by
  unfold groupbyMeanYear
  rw [List.map_map]
  exact List.map_id _

theorem selectCountry_year_mem {ds : List Row} {c : String} {y : Int}
    (h : y ∈ (selectCountry ds c).map Prod.fst) : y ∈ ds.map Row.year := by
  unfold selectCountry at h
  rw [List.map_map] at h
  rcases List.mem_map.mp h with ⟨r, hr, hy⟩
  exact List.mem_map.mpr ⟨r, List.mem_of_mem_filter hr, hy⟩

theorem dfFilteredForecast_years_sub (ds : List Row) (sel : Selection) {y : Int}
    (h : y ∈ seriesYears (dfFilteredForecast ds sel)) : y ∈ ds.map Row.year := by
  cases sel with
  | all =>
    unfold dfFilteredForecast seriesYears at h
    have h' : y ∈ (groupbyMeanYear ds).map Prod.fst :=
      ((sortLe_perm Prod.fst (groupbyMeanYear ds)).map Prod.fst).mem_iff.mp h
    rw [groupbyMeanYear_fst] at h'
    exact mem_uniqueSorted.mp h'
  | country c =>
    unfold dfFilteredForecast seriesYears at h
    have h' : y ∈ (selectCountry ds c).map Prod.fst :=
      ((sortLe_perm Prod.fst (selectCountry ds c)).map Prod.fst).mem_iff.mp h
    exact selectCountry_year_mem h'

/-! ## Claims -/

/-- C1: the specification asserts that for a well-formed series and a future
year strictly beyond the last observation, both the polynomial and the trend
outputs cover every integer year from the series minimum through the future
year.  On the specification's own scenario (series 2015-2019, future year
2021) the polynomial table does cover 2015-2021, but the trend table's year
column is [2015, 2016, 2017, 2018, 2019, 2019, 2020]: the year-end frequency
"Y" of `make_future_dataframe` starts at December 31 of the last historical
year, so the trend output duplicates 2019 and never reaches 2021.  This
contradicts the code's intent (the slider is labelled "Select Future Year to
Forecast" and `periods` is computed as `future_year - max_hist_year`). -/
theorem C1_trend_misses_future_year :
    (poly_df exSeries 2021).map Prod.fst = yearRange 2015 2021 ∧
    trendYears exSeries 2021 = [2015, 2016, 2017, 2018, 2019, 2019, 2020] ∧
    (2021 : Int) ∉ trendYears exSeries 2021 := by
  refine ⟨?_, by decide, by decide⟩
  decide

/-- C2 counterexample: on the specification's two-point scenario the
comparator does not reject the input; it fits both models and returns a
comparison table (no InsufficientData error exists anywhere in the code). -/
theorem C2_counterexample :
    twoPointSeries.length < 3 ∧
    exceptOk (comparator mZero twoPointSeries 2021) = true := by
  constructor
  · decide
  · decide

/-- C2 amended: for every series with exactly 2 points (fewer than the 3 the
specification demands) the comparator performs no minimum-data validation
and returns a fitted output instead of an error. -/
theorem C2_no_insufficient_data_check (m : YDate → ℚ × ℚ × ℚ) (s : Series)
    (fy : Int) (h : s.length = 2) :
    exceptOk (comparator m s fy) = true := by
  unfold comparator
  rw [if_neg (by omega)]
  rfl

/-- Witness for the amended C2 at the two-point scenario. -/
theorem C2_no_insufficient_data_check_witness :
    twoPointSeries.length = 2 ∧
    exceptOk (comparator mZero twoPointSeries 2021) = true :=
  ⟨by decide, C2_no_insufficient_data_check mZero twoPointSeries 2021 (by decide)⟩

/-- C7: whenever the Gram determinant of the quadratic design is nonzero
(in particular for any series with at least 3 distinct years), the
coefficients computed for `poly_df` minimise the sum of squared errors over
all quadratics - the fit is the ordinary least-squares degree-2 regression -
and `poly_df` maps every integer year from the series minimum through the
target year to the fitted curve's value there. -/
theorem C7_polynomial_ols (s : Series) (fy : Int) (h : detM s ≠ 0) :
    (∀ c0 c1 c2 : ℚ, sse s (fitC0 s) (fitC1 s) (fitC2 s) ≤ sse s c0 c1 c2) ∧
    (∀ y : Int, minYear s ≤ y → y ≤ fy → (y, polyPred s y) ∈ poly_df s fy) := by
  constructor
  · intro c0 c1 c2
    exact sse_fit_min s h c0 c1 c2
  · intro y h1 h2
    unfold poly_df
    exact List.mem_map_of_mem _ (mem_yearRange.mpr ⟨h1, h2⟩)

/-- Gram determinant of the concrete three-point series, evaluated. -/
theorem witSeries_detM : detM witSeries = 4 := by
  norm_num [detM, det3, powSum, witSeries]

/-- Witness for C7 on a concrete three-point series. -/
theorem C7_polynomial_ols_witness :
    detM witSeries ≠ 0 ∧
    sse witSeries (fitC0 witSeries) (fitC1 witSeries) (fitC2 witSeries) ≤
      sse witSeries 0 0 0 ∧
    ((2 : Int), polyPred witSeries 2) ∈ poly_df witSeries 3 := by
  have hdet : detM witSeries ≠ 0 := by
    rw [witSeries_detM]
    norm_num
  exact ⟨hdet, (C7_polynomial_ols witSeries 3 hdet).1 0 0 0,
    (C7_polynomial_ols witSeries 3 hdet).2 2 (by decide) (by decide)⟩

/-- C8 counterexample: invoked with the future year equal to the last
historical year (2019 for the scenario series) the comparator reports no
invalid-range error; it runs to completion and returns a table. -/
theorem C8_counterexample :
    maxHistYear exSeries = 2019 ∧
    exceptOk (comparator mZero exSeries 2019) = true := by
  constructor
  · decide
  · decide

/-- C8 amended: the comparator itself never reports an invalid-range error
(no such check exists in the code); instead the sidebar slider bounds the
selectable future year below by one more than the dataset's maximum year, and
any such value strictly exceeds the last historical year of every nonempty
filtered series, so the invalid range cannot arise through the interface. -/
theorem C8_no_range_check :
    (∀ (m : YDate → ℚ × ℚ × ℚ) (s : Series) (fy : Int),
      comparator m s fy ≠ Except.error CompError.invalidForecastRange) ∧
    (∀ (ds : List Row) (sel : Selection) (fy : Int),
      listMaxI (ds.map Row.year) + 1 ≤ fy →
      dfFilteredForecast ds sel ≠ [] →
      maxHistYear (dfFilteredForecast ds sel) < fy) := by
  constructor
  · intro m s fy
    unfold comparator
    by_cases h : s.length < 2
    · simp [h]
    · simp [h]
  · intro ds sel fy hfy hne
    have hmem : maxHistYear (dfFilteredForecast ds sel) ∈
        seriesYears (dfFilteredForecast ds sel) := maxHistYear_mem hne
    have hds : maxHistYear (dfFilteredForecast ds sel) ∈ ds.map Row.year :=
      dfFilteredForecast_years_sub ds sel hmem
    have hle : maxHistYear (dfFilteredForecast ds sel) ≤ listMaxI (ds.map Row.year) :=
      mem_le_listMaxI hds
    omega

/-- Witness for the amended C8 on concrete inputs. -/
theorem C8_no_range_check_witness :
    comparator mZero exSeries 2020 ≠ Except.error CompError.invalidForecastRange ∧
    maxHistYear (dfFilteredForecast exDataset Selection.all) < 2017 :=
  ⟨C8_no_range_check.1 mZero exSeries 2020,
   C8_no_range_check.2 exDataset Selection.all 2017 (by decide) (by decide)⟩

/-- C9 counterexample: the Prophet model is not constructed with all of its
sub-year seasonality arguments explicitly disabled - the weekly argument is
left at the library default "auto". -/
theorem C9_counterexample :
    ¬ (prophet_model.yearly = SeasonalityArg.disabled ∧
       prophet_model.weekly = SeasonalityArg.disabled ∧
       prophet_model.daily = SeasonalityArg.disabled) := by
  decide

/-- C9 amended: the yearly and daily seasonality arguments are explicitly
disabled; the weekly argument is left at "auto", and for annual data (where
consecutive observations are at least 7 days apart, indeed at least 365) the
library's auto rule disables it too, so no sub-year seasonal component is
active in the fitted model - but the weekly one is disabled automatically,
not explicitly. -/
theorem C9_seasonality_config :
    prophet_model.yearly = SeasonalityArg.disabled ∧
    prophet_model.daily = SeasonalityArg.disabled ∧
    prophet_model.weekly = SeasonalityArg.auto ∧
    (∀ b : Bool, seasonalityActive prophet_model.yearly b = false ∧
                 seasonalityActive prophet_model.daily b = false) ∧
    (∀ spanDays minDtDays : Int, 7 ≤ minDtDays →
      seasonalityActive prophet_model.weekly
        (weeklyAutoDisable spanDays minDtDays) = false) := by
  refine ⟨rfl, rfl, rfl, fun b => ⟨rfl, rfl⟩, ?_⟩
  intro spanDays minDtDays h
  have hd : decide (minDtDays ≥ 7) = true := decide_eq_true h
  simp [seasonalityActive, weeklyAutoDisable, prophet_model, hd]

/-- Witness for the amended C9 at annual spacing. -/
theorem C9_seasonality_config_witness :
    seasonalityActive prophet_model.weekly (weeklyAutoDisable 1460 365) = false :=
  C9_seasonality_config.2.2.2.2 1460 365 (by decide)

/-- C10: with the aggregate label selected, the series handed to the
forecast section has one row per year present in the dataset (no more, no
less), carries for each year the arithmetic mean of the per-country values of
that year, and is ordered ascending by year; with a single country selected
it is exactly that country's (year, value) rows, reordered ascending by
year. -/
theorem C10_forecast_series_selection (ds : List Row) (c : String) :
    ((dfFilteredForecast ds Selection.all).Pairwise (fun p q => p.1 ≤ q.1) ∧
     ((dfFilteredForecast ds Selection.all).map Prod.fst).Nodup ∧
     (∀ y : Int,
        y ∈ (dfFilteredForecast ds Selection.all).map Prod.fst ↔
          y ∈ ds.map Row.year) ∧
     (∀ p ∈ dfFilteredForecast ds Selection.all,
        p.2 = (yearValues ds p.1).sum / ((yearValues ds p.1).length : ℚ))) ∧
    ((dfFilteredForecast ds (Selection.country c)).Pairwise (fun p q => p.1 ≤ q.1) ∧
     List.Perm (dfFilteredForecast ds (Selection.country c)) (selectCountry ds c)) := by
  refine ⟨⟨?_, ?_, ?_, ?_⟩, ?_, ?_⟩
  · exact sortLe_pairwise Prod.fst _
  · have hperm := (sortLe_perm Prod.fst (groupbyMeanYear ds)).map Prod.fst
    simp only [dfFilteredForecast]
    refine hperm.nodup_iff.mpr ?_
    rw [groupbyMeanYear_fst]
    exact uniqueSorted_nodup _
  · intro y
    have hperm := (sortLe_perm Prod.fst (groupbyMeanYear ds)).map Prod.fst
    simp only [dfFilteredForecast]
    rw [hperm.mem_iff, groupbyMeanYear_fst]
    exact mem_uniqueSorted
  · intro p hp
    simp only [dfFilteredForecast] at hp
    have hp' : p ∈ groupbyMeanYear ds := (sortLe_perm Prod.fst _).mem_iff.mp hp
    unfold groupbyMeanYear at hp'
    rcases List.mem_map.mp hp' with ⟨y, _, rfl⟩
    rfl
  · exact sortLe_pairwise Prod.fst _
  · exact sortLe_perm Prod.fst _

/-! ### Lemmas about the merge steps -/

theorem nodup_key_unique {s : Series} (hn : (seriesYears s).Nodup)
    {y : Int} {v : ℚ} (hv : (y, v) ∈ s) {p : Int × ℚ} (hp : p ∈ s)
    (hpy : p.1 = y) : p = (y, v) := by
  induction s with
  | nil => cases hv
  | cons q qs ih =>
    have hn' : q.1 ∉ qs.map Prod.fst ∧ (qs.map Prod.fst).Nodup := by
      unfold seriesYears at hn
      rw [List.map_cons] at hn
      exact List.pairwise_cons.mp hn |>.imp_left (fun h hq => h _ hq rfl)
    rcases List.mem_cons.mp hv with hv1 | hv1 <;>
      rcases List.mem_cons.mp hp with hp1 | hp1
    · rw [hp1, ← hv1]
    · exfalso
      apply hn'.1
      rw [← hv1]
      show y ∈ qs.map Prod.fst
      rw [← hpy]
      exact List.mem_map_of_mem Prod.fst hp1
    · exfalso
      apply hn'.1
      subst hp1
      rw [hpy]
      exact List.mem_map_of_mem Prod.fst hv1
    · exact ih hn'.2 hv1 hp1

theorem leftMergeObserved_observed {rows : List MergedRow} {s : Series}
    (hn : (seriesYears s).Nodup) {y : Int} {v : ℚ} (hv : (y, v) ∈ s)
    {c : CompareRow} (hc : c ∈ leftMergeObserved rows s) (hy : c.year = y) :
    c.observed = some v := by
  unfold leftMergeObserved at hc
  rcases mem_concatMap.mp hc with ⟨r, _, hblock⟩
  by_cases he : (s.filter (fun p => p.1 == r.year)).isEmpty
  · simp only [if_pos he] at hblock
    rcases List.mem_singleton.mp hblock with rfl
    exfalso
    have hyv : (y, v) ∈ s.filter (fun p => p.1 == r.year) := by
      apply List.mem_filter.mpr
      refine ⟨hv, ?_⟩
      simp only at hy
      rw [hy]
      exact beq_self_eq_true y
    rw [List.isEmpty_iff] at he
    rw [he] at hyv
    cases hyv
  · simp only [if_neg he] at hblock
    rcases List.mem_map.mp hblock with ⟨p, hpms, rfl⟩
    have hps : p ∈ s := List.mem_of_mem_filter hpms
    have hpy : p.1 = r.year := by
      have := (List.mem_filter.mp hpms).2
      exact eq_of_beq this
    simp only at hy ⊢
    have hp : p = (y, v) := nodup_key_unique hn hv hps (by rw [hpy, hy])
    rw [hp]

theorem outerMerge_exists_year {left : Series} {right : List (Int × (ℚ × ℚ × ℚ))}
    {lp : Int × ℚ} (hlp : lp ∈ left) :
    ∃ r ∈ outerMergeYear left right, r.year = lp.1 := by
  unfold outerMergeYear
  by_cases he : (right.filter (fun rp => rp.1 == lp.1)).isEmpty
  · refine ⟨MergedRow.mk lp.1 (some lp.2) none none none, ?_, rfl⟩
    apply List.mem_append_left
    apply mem_concatMap.mpr
    refine ⟨lp, hlp, ?_⟩
    simp only [if_pos he]
    exact List.mem_singleton.mpr rfl
  · have hne : right.filter (fun rp => rp.1 == lp.1) ≠ [] := by
      intro h
      rw [h] at he
      exact he rfl
    obtain ⟨rp, hrp⟩ := List.exists_mem_of_ne_nil _ hne
    refine ⟨MergedRow.mk lp.1 (some lp.2) (some rp.2.1) (some rp.2.2.1) (some rp.2.2.2),
      ?_, rfl⟩
    apply List.mem_append_left
    apply mem_concatMap.mpr
    refine ⟨lp, hlp, ?_⟩
    simp only [if_neg he]
    exact List.mem_map_of_mem _ hrp

theorem leftMergeObserved_exists_year {rows : List MergedRow} {s : Series}
    {r : MergedRow} (hr : r ∈ rows) :
    ∃ c ∈ leftMergeObserved rows s, c.year = r.year := by
  unfold leftMergeObserved
  by_cases he : (s.filter (fun p => p.1 == r.year)).isEmpty
  · refine ⟨CompareRow.mk r.year r.poly r.yhat r.yhat_lower r.yhat_upper none, ?_, rfl⟩
    apply mem_concatMap.mpr
    refine ⟨r, hr, ?_⟩
    simp only [if_pos he]
    exact List.mem_singleton.mpr rfl
  · have hne : s.filter (fun p => p.1 == r.year) ≠ [] := by
      intro h
      rw [h] at he
      exact he rfl
    obtain ⟨p, hp⟩ := List.exists_mem_of_ne_nil _ hne
    refine ⟨CompareRow.mk r.year r.poly r.yhat r.yhat_lower r.yhat_upper (some p.2),
      ?_, rfl⟩
    apply mem_concatMap.mpr
    refine ⟨r, hr, ?_⟩
    simp only [if_neg he]
    exact List.mem_map_of_mem _ hp

/-- C4: for a series with one observation per year, the final merged table
keeps every historical observed value unchanged: every row carrying an
observed year has the original input value in its observed field, and such a
row exists for every observed year. -/
theorem C4_observed_preserved (m : YDate → ℚ × ℚ × ℚ) (s : Series) (fy : Int)
    (hn : (seriesYears s).Nodup) {y : Int} {v : ℚ} (hv : (y, v) ∈ s)
    (hfy : maxHistYear s ≤ fy) :
    (∀ c ∈ compare_df m s fy, c.year = y → c.observed = some v) ∧
    (∃ c ∈ compare_df m s fy, c.year = y ∧ c.observed = some v) := by
  constructor
  · intro c hc hyc
    exact leftMergeObserved_observed hn hv hc hyc
  · have h1 : (y, polyPred s y) ∈ poly_df s fy := by
      unfold poly_df
      apply List.mem_map_of_mem
      exact mem_yearRange.mpr ⟨minYear_le hv, le_trans (le_maxHistYear hv) hfy⟩
    obtain ⟨r, hr, hry⟩ :=
      @outerMerge_exists_year (poly_df s fy) (forecast_result m s fy) _ h1
    have hr' : r ∈ sortLe MergedRow.year
        (outerMergeYear (poly_df s fy) (forecast_result m s fy)) :=
      (sortLe_perm MergedRow.year _).mem_iff.mpr hr
    obtain ⟨c, hc, hcy⟩ := @leftMergeObserved_exists_year _ s _ hr'
    refine ⟨c, hc, ?_, ?_⟩
    · rw [hcy, hry]
    · exact leftMergeObserved_observed hn hv hc (by rw [hcy, hry])

/-- Witness for C4 on the scenario series at year 2015. -/
theorem C4_observed_preserved_witness :
    (seriesYears exSeries).Nodup ∧
    ((2015 : Int), (1 : ℚ)) ∈ exSeries ∧
    maxHistYear exSeries ≤ 2021 ∧
    ((∀ c ∈ compare_df mZero exSeries 2021, c.year = 2015 → c.observed = some 1) ∧
     (∃ c ∈ compare_df mZero exSeries 2021, c.year = 2015 ∧ c.observed = some 1)) := by
  have hmem : ((2015 : Int), (1 : ℚ)) ∈ exSeries := by
    unfold exSeries
    exact List.mem_cons_self _ _
  exact ⟨by decide, hmem, by decide,
    C4_observed_preserved mZero exSeries 2021 (by decide) hmem (by decide)⟩

/-! ### Counting machinery for the merged table -/

theorem concatMap_map {α β γ : Type} (f : α → List β) (g : β → γ) (l : List α) :
    (concatMap f l).map g = concatMap (fun a => (f a).map g) l := by
  induction l with
  | nil => rfl
  | cons a as ih => simp only [concatMap, List.map_append, ih]

theorem count_concatMap {α : Type} (f : α → List Int) (l : List α) (y : Int) :
    (concatMap f l).count y = (l.map (fun a => (f a).count y)).sum := by
  induction l with
  | nil => rfl
  | cons a as ih =>
    simp only [concatMap, List.count_append, ih, List.map_cons, List.sum_cons]

theorem sum_nat_eq_zero {l : List Nat} (h : ∀ x ∈ l, x = 0) : l.sum = 0 := by
  induction l with
  | nil => rfl
  | cons a as ih =>
    rw [List.sum_cons, h a (List.mem_cons_self a as),
      ih (fun x hx => h x (List.mem_cons_of_mem a hx))]

theorem sum_ite_count {l : List Int} (hl : l.Nodup) (y : Int) (C : Int → Nat) :
    (l.map (fun t => if t = y then C t else 0)).sum = if y ∈ l then C y else 0 := by
  induction l with
  | nil => simp
  | cons t ts ih =>
    have hts := List.pairwise_cons.mp hl
    by_cases h : t = y
    · subst h
      rw [List.map_cons, List.sum_cons, if_pos rfl]
      have hzero : (ts.map (fun u => if u = t then C u else 0)).sum = 0 := by
        apply sum_nat_eq_zero
        intro x hx
        rcases List.mem_map.mp hx with ⟨u, hu, rfl⟩
        rw [if_neg (fun he => hts.1 u hu he.symm)]
      rw [hzero, if_pos (List.mem_cons_self t ts)]
      omega
    · rw [List.map_cons, List.sum_cons, if_neg h, ih hts.2]
      have hmem : (y ∈ t :: ts) ↔ (y ∈ ts) := by
        rw [List.mem_cons]
        exact or_iff_right (fun he => h he.symm)
      by_cases hy : y ∈ ts
      · rw [if_pos hy, if_pos (hmem.mpr hy)]
        omega
      · rw [if_neg hy, if_neg (fun hc => hy (hmem.mp hc))]

theorem countP_range_shift (p : Nat) (base y : Int) :
    (List.range p).countP (fun (i : Nat) => base + (i : Int) == y) =
      if base ≤ y ∧ y < base + (p : Int) then 1 else 0 := by
  induction p with
  | zero =>
    rw [List.range_zero, List.countP_nil, if_neg]
    omega
  | succ n ih =>
    rw [List.range_succ, List.countP_append, ih, List.countP_cons, List.countP_nil]
    simp only [beq_iff_eq]
    split_ifs <;> omega

theorem seriesYears_bounds {s : Series} {y : Int} (h : y ∈ seriesYears s) :
    minYear s ≤ y ∧ y ≤ maxHistYear s := by
  rcases List.mem_map.mp h with ⟨p, hp, rfl⟩
  exact ⟨minYear_le hp, le_maxHistYear hp⟩

theorem uniqueSorted_count (l : List Int) (y : Int) :
    (uniqueSorted l).count y = if y ∈ l then 1 else 0 := by
  by_cases hmem : y ∈ l
  · rw [if_pos hmem]
    exact List.count_eq_one_of_mem (uniqueSorted_nodup l) (mem_uniqueSorted.mpr hmem)
  · rw [if_neg hmem]
    exact List.count_eq_zero_of_not_mem (fun h => hmem (mem_uniqueSorted.mp h))

theorem filter_key_len_le_one {s : Series} (hn : (seriesYears s).Nodup) (a : Int) :
    (s.filter (fun p => p.1 == a)).length ≤ 1 := by
  induction s with
  | nil => simp
  | cons q qs ih =>
    have hq : q.1 ∉ qs.map Prod.fst ∧ (qs.map Prod.fst).Nodup := by
      unfold seriesYears at hn
      rw [List.map_cons] at hn
      exact List.nodup_cons.mp hn
    rw [List.filter_cons]
    by_cases hqa : (q.1 == a) = true
    · rw [if_pos hqa]
      have hnil : qs.filter (fun p => p.1 == a) = [] := by
        rw [List.filter_eq_nil_iff]
        intro p hp hc
        apply hq.1
        have : p.1 = q.1 := by
          rw [eq_of_beq hc, eq_of_beq hqa]
        rw [← this]
        exact List.mem_map_of_mem Prod.fst hp
      rw [hnil]
      simp
    · rw [if_neg hqa]
      exact ih hq.2

theorem leftMergeObserved_years (rows : List MergedRow) {s : Series}
    (hn : (seriesYears s).Nodup) :
    (leftMergeObserved rows s).map CompareRow.year = rows.map MergedRow.year := by
  induction rows with
  | nil => rfl
  | cons r rs ih =>
    have hstep : leftMergeObserved (r :: rs) s =
        (if (s.filter (fun p => p.1 == r.year)).isEmpty then
          [CompareRow.mk r.year r.poly r.yhat r.yhat_lower r.yhat_upper none]
        else
          (s.filter (fun p => p.1 == r.year)).map (fun p =>
            CompareRow.mk r.year r.poly r.yhat r.yhat_lower r.yhat_upper (some p.2)))
          ++ leftMergeObserved rs s := rfl
    have hblock : ((if (s.filter (fun p => p.1 == r.year)).isEmpty then
          [CompareRow.mk r.year r.poly r.yhat r.yhat_lower r.yhat_upper none]
        else
          (s.filter (fun p => p.1 == r.year)).map (fun p =>
            CompareRow.mk r.year r.poly r.yhat r.yhat_lower r.yhat_upper (some p.2))).map
        CompareRow.year) = [r.year] := by
      by_cases he : (s.filter (fun p => p.1 == r.year)).isEmpty
      · rw [if_pos he]
        rfl
      · have hlen1 : (s.filter (fun p => p.1 == r.year)).length = 1 := by
          have hle := filter_key_len_le_one hn r.year
          have hne : s.filter (fun p => p.1 == r.year) ≠ [] := by
            intro hc
            rw [hc] at he
            exact he rfl
          have hpos := List.length_pos.mpr hne
          omega
        rw [if_neg he, List.map_map]
        show (s.filter (fun p => p.1 == r.year)).map (fun _ => r.year) = [r.year]
        rw [List.map_const', hlen1]
        rfl
    rw [hstep, List.map_append, ih, hblock, List.singleton_append, List.map_cons]

theorem rightOnly_nil (left : Series) (right : List (Int × (ℚ × ℚ × ℚ)))
    (hsub : ∀ rp ∈ right, ∃ lp ∈ left, lp.1 = rp.1) :
    right.filter (fun rp => !(left.any (fun lp => lp.1 == rp.1))) = [] := by
  rw [List.filter_eq_nil_iff]
  intro rp hrp hc
  rw [Bool.not_eq_true'] at hc
  rw [List.any_eq_false] at hc
  obtain ⟨lp, hlp, he⟩ := hsub rp hrp
  exact hc lp hlp (beq_iff_eq.mpr he)

theorem outerMergeYear_years (left : Series) (right : List (Int × (ℚ × ℚ × ℚ)))
    (hsub : ∀ rp ∈ right, ∃ lp ∈ left, lp.1 = rp.1) :
    (outerMergeYear left right).map MergedRow.year =
      concatMap (fun lp => List.replicate
        (max 1 (right.filter (fun rp => rp.1 == lp.1)).length) lp.1) left := by
  unfold outerMergeYear
  rw [rightOnly_nil left right hsub, List.map_nil, List.append_nil]
  rw [concatMap_map]
  congr 1
  funext lp
  by_cases he : (right.filter (fun rp => rp.1 == lp.1)).isEmpty
  · rw [if_pos he]
    have hlen : (right.filter (fun rp => rp.1 == lp.1)).length = 0 := by
      rw [List.isEmpty_iff] at he
      rw [he]
      rfl
    rw [hlen]
    rfl
  · have hlen : 1 ≤ (right.filter (fun rp => rp.1 == lp.1)).length := by
      have hne : right.filter (fun rp => rp.1 == lp.1) ≠ [] := by
        intro hc
        rw [hc] at he
        exact he rfl
      exact List.length_pos.mpr hne
    rw [if_neg he, List.map_map, max_eq_right hlen]
    show (right.filter (fun rp => rp.1 == lp.1)).map (fun _ => lp.1) =
      List.replicate (right.filter (fun rp => rp.1 == lp.1)).length lp.1
    rw [List.map_const']

theorem poly_df_fst (s : Series) (fy : Int) :
    (poly_df s fy).map Prod.fst = yearRange (minYear s) fy := by
  unfold poly_df
  rw [List.map_map]
  show (yearRange (minYear s) fy).map (fun t => t) = yearRange (minYear s) fy
  rw [List.map_id']

theorem forecast_filter_length (m : YDate → ℚ × ℚ × ℚ) (s : Series) (fy : Int)
    (y : Int) :
    ((forecast_result m s fy).filter (fun rp => rp.1 == y)).length =
      (if y ∈ seriesYears s then 1 else 0) +
      (if maxHistYear s ≤ y ∧ y < maxHistYear s + ((fy - maxHistYear s).toNat : Int)
        then 1 else 0) := by
  unfold forecast_result
  rw [List.filter_map, List.length_map, ← List.countP_eq_length_filter]
  show (future_df s (fy - maxHistYear s)).countP (fun d => d.year == y) = _
  rw [future_df_eq, List.countP_append]
  congr 1
  · unfold historyDates
    rw [List.countP_map]
    show (uniqueSorted (seriesYears s)).count y = _
    rw [uniqueSorted_count]
  · rw [List.countP_map]
    show (List.range (fy - maxHistYear s).toNat).countP
      (fun (i : Nat) => maxHistYear s + (i : Int) == y) = _
    rw [countP_range_shift]

theorem forecast_years_in_poly (m : YDate → ℚ × ℚ × ℚ) (s : Series) (fy : Int)
    (hne : s ≠ []) (hle : maxHistYear s ≤ fy) :
    ∀ rp ∈ forecast_result m s fy, ∃ lp ∈ poly_df s fy, lp.1 = rp.1 := by
  intro rp hrp
  unfold forecast_result at hrp
  rcases List.mem_map.mp hrp with ⟨d, hd, rfl⟩
  refine ⟨(d.year, polyPred s d.year), ?_, rfl⟩
  unfold poly_df
  apply List.mem_map_of_mem
  apply mem_yearRange.mpr
  rw [future_df_eq] at hd
  rcases List.mem_append.mp hd with hd | hd
  · unfold historyDates at hd
    rcases List.mem_map.mp hd with ⟨t, ht, rfl⟩
    have hb := seriesYears_bounds (mem_uniqueSorted.mp ht)
    show minYear s ≤ t ∧ t ≤ fy
    omega
  · rcases List.mem_map.mp hd with ⟨i, hi, rfl⟩
    rw [List.mem_range] at hi
    show minYear s ≤ maxHistYear s + (i : Int) ∧ maxHistYear s + (i : Int) ≤ fy
    have hmm := minYear_le_maxHistYear hne
    omega

theorem sum_ite_count_fst {l : Series} (hl : (l.map Prod.fst).Nodup) (y : Int)
    (C : Int → Nat) :
    (l.map (fun lp => if lp.1 = y then C lp.1 else 0)).sum =
      if y ∈ l.map Prod.fst then C y else 0 := by
  induction l with
  | nil => simp
  | cons q qs ih =>
    rw [List.map_cons] at hl
    have hq := List.nodup_cons.mp hl
    rw [List.map_cons, List.sum_cons, ih hq.2]
    by_cases h : q.1 = y
    · rw [if_pos h]
      have hmem : y ∉ qs.map Prod.fst := by
        rw [← h]
        exact hq.1
      rw [if_neg hmem, List.map_cons, if_pos (by rw [h]; exact List.mem_cons_self y _)]
      rw [h]
      omega
    · rw [if_neg h, List.map_cons]
      have hmem : (y ∈ q.1 :: qs.map Prod.fst) ↔ (y ∈ qs.map Prod.fst) := by
        rw [List.mem_cons]
        exact or_iff_right (fun he => h he.symm)
      by_cases hy : y ∈ qs.map Prod.fst
      · rw [if_pos hy, if_pos (hmem.mpr hy)]
        omega
      · rw [if_neg hy, if_neg (fun hc => hy (hmem.mp hc))]

/-- C6 counterexample: on the specification's scenario the year 2019 is
present in the polynomial output, yet the final table carries two rows for
it, not one: the trend table contains 2019 twice (once from the history
dates and once from the first generated year-end date), and the outer merge
emits one row per matching pair. -/
theorem C6_counterexample :
    (2019 : Int) ∈ (poly_df exSeries 2021).map Prod.fst ∧
    ((compare_df mZero exSeries 2021).filter (fun r => r.year == 2019)).length = 2 := by
  constructor
  · decide
  · decide

/-- C6 amended: the final table is the outer join of the two forecast tables
on year followed by a left join of the observed series, ordered ascending by
year - but with one row per matching left/right pair rather than one row per
year: for a duplicate-free series the last historical year occurs twice
(the trend table contains it twice) and every other year of the evaluated
range exactly once. -/
theorem C6_merge_structure (m : YDate → ℚ × ℚ × ℚ) (s : Series) (fy : Int)
    (hn : (seriesYears s).Nodup) (hne : s ≠ []) (hlt : maxHistYear s < fy) :
    ((compare_df m s fy).map CompareRow.year).Pairwise (fun a b => a ≤ b) ∧
    (∀ y : Int, ((compare_df m s fy).map CompareRow.year).count y =
      if y = maxHistYear s then 2
      else if minYear s ≤ y ∧ y ≤ fy then 1 else 0) := by
  have hyears : (compare_df m s fy).map CompareRow.year =
      (sortLe MergedRow.year
        (outerMergeYear (poly_df s fy) (forecast_result m s fy))).map
        MergedRow.year := leftMergeObserved_years _ hn
  constructor
  · rw [hyears]
    exact List.pairwise_map.mpr (sortLe_pairwise MergedRow.year _)
  · intro y
    rw [hyears]
    have hperm := (sortLe_perm MergedRow.year
      (outerMergeYear (poly_df s fy) (forecast_result m s fy))).map MergedRow.year
    rw [hperm.count_eq y]
    rw [outerMergeYear_years _ _ (forecast_years_in_poly m s fy hne (le_of_lt hlt))]
    rw [count_concatMap]
    have hpoint : ∀ lp ∈ poly_df s fy,
        (List.replicate (max 1 ((forecast_result m s fy).filter
          (fun rp => rp.1 == lp.1)).length) lp.1).count y =
        (if lp.1 = y then
          max 1 ((forecast_result m s fy).filter (fun rp => rp.1 == lp.1)).length
          else 0) := by
      intro lp _
      rw [List.count_replicate]
      by_cases ht : lp.1 = y
      · rw [if_pos (beq_iff_eq.mpr ht), if_pos ht]
      · rw [if_neg ht, if_neg (fun hc => ht (eq_of_beq hc))]
    rw [List.map_congr_left hpoint]
    have hform : ∀ lp : Int × ℚ,
        (if lp.1 = y then
          max 1 ((forecast_result m s fy).filter (fun rp => rp.1 == lp.1)).length
          else 0) =
        (if lp.1 = y then
          max 1 ((forecast_result m s fy).filter (fun rp => rp.1 == y)).length
          else 0) := by
      intro lp
      by_cases ht : lp.1 = y
      · rw [if_pos ht, if_pos ht, ht]
      · rw [if_neg ht, if_neg ht]
    rw [List.map_congr_left (fun lp _ => hform lp)]
    rw [sum_ite_count_fst (by rw [poly_df_fst]; exact yearRange_nodup _ _) y
      (fun _ => max 1 ((forecast_result m s fy).filter (fun rp => rp.1 == y)).length)]
    rw [poly_df_fst, forecast_filter_length m s fy y]
    have hfy : maxHistYear s + ((fy - maxHistYear s).toNat : Int) = fy := by omega
    rw [hfy]
    by_cases h1 : y = maxHistYear s
    · subst h1
      rw [if_pos (mem_yearRange.mpr ⟨minYear_le_maxHistYear hne, le_of_lt hlt⟩)]
      rw [if_pos (maxHistYear_mem hne), if_pos ⟨le_refl _, hlt⟩, if_pos rfl]
      rfl
    · rw [if_neg h1]
      by_cases h2 : minYear s ≤ y ∧ y ≤ fy
      · rw [if_pos (mem_yearRange.mpr h2), if_pos h2]
        by_cases h3 : y ∈ seriesYears s
        · rw [if_pos h3]
          have h4 : ¬(maxHistYear s ≤ y ∧ y < fy) := by
            have hb := (seriesYears_bounds h3).2
            intro hc
            exact h1 (le_antisymm hb hc.1)
          rw [if_neg h4]
          omega
        · rw [if_neg h3]
          by_cases h5 : maxHistYear s ≤ y ∧ y < fy
          · rw [if_pos h5]
            omega
          · rw [if_neg h5]
            omega
      · rw [if_neg (fun hc => h2 (mem_yearRange.mp hc)), if_neg h2]

/-- Witness for the amended C6 at the scenario series, evaluated at year
2019 (the duplicated last historical year). -/
theorem C6_merge_structure_witness :
    (seriesYears exSeries).Nodup ∧ exSeries ≠ [] ∧ maxHistYear exSeries < 2021 ∧
    ((compare_df mZero exSeries 2021).map CompareRow.year).count 2019 =
      (if (2019 : Int) = maxHistYear exSeries then 2
       else if minYear exSeries ≤ 2019 ∧ (2019 : Int) ≤ 2021 then 1 else 0) :=
  ⟨by decide, by decide, by decide,
   (C6_merge_structure mZero exSeries 2021 (by decide) (by decide) (by decide)).2 2019⟩

end Dashboard
